import Mathlib

/-!
Shallow embedding of the keriox event-processing core: the key-event data
model, key-configuration verification, the next-key XOR-fold commitment,
event semantics over identifier state, serialization size handling and the
attached-signature block parser, together with theorems about them.

Modules of the repository that are referenced but whose sources are not part
of the staged tree (`error`, `prefix`, `derivation`, `state`, the per-variant
event payload files and the serde serializers) are modelled from the spec;
each such definition carries a doc comment saying so.  Cryptographic
primitives and the serde body encodings are external collaborators and enter
as an explicit oracle parameter.
-/

deriving instance DecidableEq for Except

namespace Keriox

/-- Bytes of a message or an encoded form, modelled as a list of characters
(the repository's streams are ASCII/base64-url text). -/
abbrev Bytes := List Char

/-- Raw digest bytes, modelled as a list of naturals (one per byte). -/
abbrev Digest := List Nat

/-- Modelled from the spec: the self-addressing derivation codes name the hash
algorithm of a digest (module `derivation::self_addressing` is not in the
staged sources). -/
inductive SelfAddressing
  | blake3_256
  | blake2b_256
  | sha3_256
deriving DecidableEq, Repr

/-- Modelled from the spec: a SelfAddressing prefix is a digest tagged with
its hash algorithm (module `prefix` is not in the staged sources). -/
structure SelfAddressingPrefix where
  derivation : SelfAddressing
  derivative : Digest
deriving DecidableEq, Repr

/-- Constructor mirroring `SelfAddressingPrefix::new(derivation, bytes)`. -/
def SelfAddressingPrefix.new (derivation : SelfAddressing) (derivative : Digest) :
    SelfAddressingPrefix :=
  { derivation := derivation, derivative := derivative }

/-- Modelled from the spec: a Basic prefix is an encoded public key; prefix
equality is byte-equality of the encoded form, so the encoded string is the
whole datum (module `prefix` is not in the staged sources).  `toList` plays
the role of `to_str().as_bytes()`. -/
abbrev BasicPrefix := String

/-- Modelled from the spec and the parser tests: a SelfSigning prefix is a
raw signature tagged with its scheme. -/
inductive SelfSigningPrefix
  | ed25519Sha512 (sig : Bytes)
  | ed448 (sig : Bytes)
deriving DecidableEq, Repr

/-- Modelled from the spec: an attached signature carries the signing-key
index into the active key list. -/
structure AttachedSignaturePrefix where
  index : Nat
  signature : SelfSigningPrefix
deriving DecidableEq, Repr

/-- Modelled from the spec: the identifier of a log is a Basic, SelfAddressing
or SelfSigning prefix (module `prefix` is not in the staged sources). -/
inductive IdentifierPrefix
  | basic (bp : BasicPrefix)
  | selfAddressing (sap : SelfAddressingPrefix)
  | selfSigning (ssp : SelfSigningPrefix)
deriving DecidableEq, Repr

/-- Modelled from the spec: `IdentifierPrefix::default()`, the empty prefix an
uninitialized identifier state carries ("default prefix serializes to empty
string"). -/
def IdentifierPrefix.default : IdentifierPrefix :=
  .selfAddressing { derivation := .blake3_256, derivative := [] }

/-- Modelled from the spec's §7 error taxonomy (module `error` is not in the
staged sources). -/
inductive Error
  | semanticError (msg : String)
  | notEnoughSigsError
  | eventOutOfOrderError
  | eventDuplicateError
  | cryptoError
  | serializationError
deriving DecidableEq, Repr

/-- `KeyConfig` from `src/event/sections/mod.rs`: threshold, current public
keys and the commitment to the next key configuration. -/
structure KeyConfig where
  threshold : Nat
  public_keys : List BasicPrefix
  threshold_key_digest : SelfAddressingPrefix
deriving DecidableEq, Repr

/-- `InceptionWitnessConfig` from `src/event/sections/mod.rs`. -/
structure InceptionWitnessConfig where
  tally : Nat
  initial_witnesses : List BasicPrefix
deriving DecidableEq, Repr

/-- `WitnessConfig` from `src/event/sections/mod.rs`: tally, cuts and adds. -/
structure WitnessConfig where
  tally : Nat
  prune : List BasicPrefix
  graft : List BasicPrefix
deriving DecidableEq, Repr

/-- Modelled from the spec: the Icp payload (file `event/inception.rs` is not
in the staged sources; its fields are fixed by the tests in
`src/event_message/mod.rs`). Config traits stay opaque strings. -/
structure InceptionEvent where
  key_config : KeyConfig
  witness_config : InceptionWitnessConfig
  inception_configuration : List String
deriving DecidableEq, Repr

/-- Modelled from the spec: the Rot payload (file `event/rotation.rs` is not
in the staged sources).  Seals are opaque to the state machine. -/
structure RotationEvent where
  previous_event_hash : SelfAddressingPrefix
  key_config : KeyConfig
  witness_config : WitnessConfig
  data : List String
deriving DecidableEq, Repr

/-- Modelled from the spec: the Ixn payload (file `event/interaction.rs` is
not in the staged sources). -/
structure InteractionEvent where
  previous_event_hash : SelfAddressingPrefix
  data : List String
deriving DecidableEq, Repr

/-- Modelled from the spec: Dip is Icp plus the delegator's identifier (file
`event/delegated.rs` is not in the staged sources). -/
structure DelegatedInceptionEvent where
  inception : InceptionEvent
  delegator : IdentifierPrefix
deriving DecidableEq, Repr

/-- Modelled from the spec: Drt is Rot plus the delegator's identifier. -/
structure DelegatedRotationEvent where
  rotation : RotationEvent
  delegator : IdentifierPrefix
deriving DecidableEq, Repr

/-- `EventData` from `src/event/mod.rs`: the five event variants. -/
inductive EventData
  | icp (e : InceptionEvent)
  | rot (e : RotationEvent)
  | ixn (e : InteractionEvent)
  | dip (e : DelegatedInceptionEvent)
  | drt (e : DelegatedRotationEvent)
deriving DecidableEq, Repr

/-- `Event` from `src/event/mod.rs`.  The identifier field is named by its
wire tag `pre` (the source's serde rename of `prefix`). -/
structure Event where
  pre : IdentifierPrefix
  sn : Nat
  event_data : EventData
deriving DecidableEq, Repr

/-- `SerializationFormats` (module `event_message::serialization_info` is not
in the staged sources; modelled from the spec: JSON and CBOR). -/
inductive SerializationFormats
  | json
  | cbor
deriving DecidableEq, Repr

/-- Modelled from the spec: the version string's components, format kind and
encoded-size field. -/
structure SerializationInfo where
  kind : SerializationFormats
  size : Nat
deriving DecidableEq, Repr

/-- `EventMessage` from `src/event_message/mod.rs`. -/
structure EventMessage where
  serialization_info : SerializationInfo
  event : Event
deriving DecidableEq, Repr

/-- Modelled from the spec's §3 `IdentifierState` (module `state` is not in
the staged sources).  The identifier field is named `pre` like `Event`'s. -/
structure IdentifierState where
  pre : IdentifierPrefix
  sn : Nat
  last : Bytes
  current : KeyConfig
  witnesses : List BasicPrefix
  tally : Nat
  delegated_keys : List IdentifierPrefix
  delegator : Option IdentifierPrefix
deriving DecidableEq, Repr

/-- Modelled from the spec: `IdentifierState::default()`, the empty state an
inception is applied to. -/
def IdentifierState.default : IdentifierState :=
  { pre := IdentifierPrefix.default
    sn := 0
    last := []
    current :=
      { threshold := 0
        public_keys := []
        threshold_key_digest := { derivation := .blake3_256, derivative := [] } }
    witnesses := []
    tally := 0
    delegated_keys := []
    delegator := none }

/-- The external collaborators, as the spec's §1 scopes them out: the hash
oracle behind self-addressing derivation, the signature-verification oracle
behind `BasicPrefix::verify`, the serde body encoders, and the
dummy-substitution inception-data serializer of `get_inception_data`. -/
structure Oracle where
  hash : SelfAddressing → Bytes → Digest
  sigVerify : BasicPrefix → Bytes → SelfSigningPrefix → Except Error Bool
  body : SerializationFormats → Event → Bytes
  inceptionData : InceptionEvent → SelfAddressing → SerializationFormats → Bytes

/-- Modelled from the spec: `derivation.derive(data)` tags the hash of the
input with the algorithm. -/
def SelfAddressing.derive (O : Oracle) (d : SelfAddressing) (data : Bytes) :
    SelfAddressingPrefix :=
  { derivation := d, derivative := O.hash d data }

/-- Modelled from the spec: `SelfAddressingPrefix::verify_binding(data)` holds
when the digest equals the hash of the data under the prefix's own
algorithm. -/
def SelfAddressingPrefix.verify_binding (O : Oracle) (sap : SelfAddressingPrefix)
    (data : Bytes) : Bool :=
  decide (sap.derivative = O.hash sap.derivation data)

/-- Byte-wise XOR of two digests, the `zip`/`map` in `nxt_commitment`. -/
def xorBytes (a b : Digest) : Digest :=
  List.zipWith (fun x y => x ^^^ y) a b

/-- Little-endian base-16 digits, with fuel making the recursion structural
(`n` itself is always enough fuel). -/
def hexDigitsAux : Nat → Nat → List Nat
  | 0, _ => []
  | _ + 1, 0 => []
  | fuel + 1, n + 1 => ((n + 1) % 16) :: hexDigitsAux fuel ((n + 1) / 16)

/-- Lowercase-hex rendering of a natural, `format!("\x7b:x\x7d", n)`. -/
def hexChars (n : Nat) : Bytes :=
  if n = 0 then ['0'] else ((hexDigitsAux n n).reverse.map Nat.digitChar)

/-- `nxt_commitment` from `src/event/sections/mod.rs`: fold the keys over the
digest of the hex threshold, XOR-ing in each key's digest. -/
def nxt_commitment (O : Oracle) (threshold : Nat) (keys : List BasicPrefix)
    (derivation : SelfAddressing) : SelfAddressingPrefix :=
  keys.foldl
    (fun acc pk =>
      SelfAddressingPrefix.new derivation
        (xorBytes acc.derivative (O.hash derivation pk.toList)))
    (SelfAddressing.derive O derivation (hexChars threshold))

/-- `KeyConfig::commit` from `src/event/sections/mod.rs`. -/
def KeyConfig.commit (O : Oracle) (kc : KeyConfig) (derivation : SelfAddressing) :
    SelfAddressingPrefix :=
  nxt_commitment O kc.threshold kc.public_keys derivation

/-- `KeyConfig::verify_next` from `src/event/sections/mod.rs`. -/
def KeyConfig.verify_next (O : Oracle) (cur next : KeyConfig) : Bool :=
  decide (cur.threshold_key_digest =
    next.commit O cur.threshold_key_digest.derivation)

/-- One step of the duplicate-index accumulation in `KeyConfig::verify`:
`acc[i] += 1`, `none` when the index is out of bounds (in Rust that indexing
panics). -/
def bumpAt : List Nat → Nat → Option (List Nat)
  | [], _ => none
  | x :: xs, 0 => some ((x + 1) :: xs)
  | x :: xs, n + 1 => (bumpAt xs n).map (fun ys => x :: ys)

/-- The duplicate-index accumulation of `KeyConfig::verify`: fold
`acc[sig.index] += 1` over `vec![0; public_keys.len()]`; `none` models the
out-of-bounds panic. -/
def dupFold (len : Nat) (sigs : List AttachedSignaturePrefix) : Option (List Nat) :=
  sigs.foldlM (fun acc s => bumpAt acc s.index) (List.replicate len 0)

/-- The signature-checking fold of `KeyConfig::verify`: threading
`Result<bool>`, short-circuiting `&&` on a false accumulator, erroring on a
missing key index or a failing oracle. -/
def verifyFold (O : Oracle) (kc : KeyConfig) (message : Bytes)
    (sigs : List AttachedSignaturePrefix) : Except Error Bool :=
  sigs.foldl
    (fun acc s =>
      acc.bind fun a =>
        if a then
          match kc.public_keys.get? s.index with
          | none => Except.error (Error.semanticError "Key index not present in set")
          | some key => O.sigVerify key message s.signature
        else Except.ok false)
    (Except.ok true)

/-- `KeyConfig::verify` from `src/event/sections/mod.rs`.  The outer `Option`
is `none` exactly when the Rust code panics: the duplicate-index accumulation
indexes `acc[sig.index]` without a bounds check. -/
def KeyConfig.verify (O : Oracle) (kc : KeyConfig) (message : Bytes)
    (sigs : List AttachedSignaturePrefix) : Option (Except Error Bool) :=
  if sigs.length < kc.threshold then
    some (Except.error Error.notEnoughSigsError)
  else if sigs.length ≤ kc.public_keys.length then
    match dupFold kc.public_keys.length sigs with
    | none => none
    | some acc =>
      if acc.all (fun n => n ≤ 1) then
        some (verifyFold O kc message sigs)
      else
        some (Except.error (Error.semanticError "Invalid signatures set"))
  else
    some (Except.error (Error.semanticError "Invalid signatures set"))

/-- Modelled from the spec's §4.4 Icp effect (file `event/inception.rs` is
not in the staged sources): install the key configuration, record witnesses
and tally, clear delegated keys. -/
def InceptionEvent.apply_to (icp : InceptionEvent) (state : IdentifierState) :
    Except Error IdentifierState :=
  Except.ok
    { state with
      current := icp.key_config
      witnesses := icp.witness_config.initial_witnesses
      tally := icp.witness_config.tally
      delegated_keys := [] }

/-- Modelled from the spec's §4.4 Rot effect, steps 2 to 4 (file
`event/rotation.rs` is not in the staged sources; step 1, the prior-digest
binding, is done by `EventMessage::apply_to` in the staged code): check the
next-key commitment, apply cuts then adds, install the new keys. -/
def RotationEvent.apply_to (O : Oracle) (rot : RotationEvent)
    (state : IdentifierState) : Except Error IdentifierState :=
  if KeyConfig.verify_next O state.current rot.key_config then
    if rot.witness_config.prune.all (fun w => state.witnesses.contains w)
        && rot.witness_config.graft.all (fun w => ! state.witnesses.contains w) then
      Except.ok
        { state with
          current := rot.key_config
          witnesses :=
            (state.witnesses.filter
              (fun w => ! rot.witness_config.prune.contains w))
              ++ rot.witness_config.graft
          tally := rot.witness_config.tally }
    else
      Except.error (Error.semanticError "Invalid witness cuts or adds")
  else
    Except.error (Error.semanticError "Next keys do not match commitment")

/-- Modelled from the spec's §4.4 Ixn effect (file `event/interaction.rs` is
not in the staged sources): no change to keys or witnesses; the prior-digest
binding is checked by `EventMessage::apply_to` in the staged code. -/
def InteractionEvent.apply_to (_ : InteractionEvent) (state : IdentifierState) :
    Except Error IdentifierState :=
  Except.ok state

/-- Modelled from the spec's §4.4: Dip as Icp, recording the delegator. -/
def DelegatedInceptionEvent.apply_to (dip : DelegatedInceptionEvent)
    (state : IdentifierState) : Except Error IdentifierState :=
  (dip.inception.apply_to state).map fun s => { s with delegator := some dip.delegator }

/-- Modelled from the spec's §4.4: Drt as Rot, recording the delegator. -/
def DelegatedRotationEvent.apply_to (O : Oracle) (drt : DelegatedRotationEvent)
    (state : IdentifierState) : Except Error IdentifierState :=
  (RotationEvent.apply_to O drt.rotation state).map fun s =>
    { s with delegator := some drt.delegator }

/-- `EventSemantics for EventData` from `src/event/mod.rs`: dispatch to the
variant's apply. -/
def EventData.apply_to (O : Oracle) (ed : EventData) (state : IdentifierState) :
    Except Error IdentifierState :=
  match ed with
  | .icp e => e.apply_to state
  | .rot e => e.apply_to O state
  | .ixn e => e.apply_to state
  | .dip e => e.apply_to state
  | .drt e => e.apply_to O state

/-- `EventSemantics for Event` from `src/event/mod.rs` lines 65-89: the
general pre-checks (Icp needs `state.prefix == default` and `self.sn == 0`,
any other needs matching prefix and `self.sn == state.sn + 1`, each violation
a `SemanticError`), then the variant apply with `sn` and the identifier
overwritten from the event. -/
def Event.apply_to (O : Oracle) (e : Event) (state : IdentifierState) :
    Except Error IdentifierState :=
  let check : Except Error Unit :=
    match e.event_data with
    | .icp _ =>
      if state.pre ≠ IdentifierPrefix.default ∨ e.sn ≠ 0 then
        Except.error (Error.semanticError "SN is not correct")
      else Except.ok ()
    | _ =>
      if e.pre ≠ state.pre then
        Except.error (Error.semanticError "Prefix does not match")
      else if e.sn ≠ state.sn + 1 then
        Except.error (Error.semanticError "SN is not correct")
      else Except.ok ()
  check.bind fun _ =>
    (EventData.apply_to O e.event_data state).map fun st =>
      { st with sn := e.sn, pre := e.pre }

/-- Modelled from the spec's §4.2: the format tag inside the version
string. -/
def SerializationFormats.toChars : SerializationFormats → Bytes
  | .json => "JSON".toList
  | .cbor => "CBOR".toList

/-- Modelled from the spec's §4.2: the size field `NNNNNN`, lowercase hex
padded to six digits (Rust's `\x7b:06x\x7d`: at least six, never
truncated). -/
def hexPad6 (n : Nat) : Bytes :=
  let d : Bytes := (hexDigitsAux n n).reverse.map Nat.digitChar
  List.replicate (6 - d.length) '0' ++ d

/-- Modelled from the spec's §4.2: the version string
`KERI10<FMT>NNNNNN_`. -/
def versionChars (info : SerializationInfo) : Bytes :=
  "KERI10".toList ++ info.kind.toChars ++ hexPad6 info.size ++ ['_']

/-- Modelled from the spec: `EventMessage::serialize` embeds the version
string in the encoding; the rest of the encoding depends only on the format
and the event (the serde encoders are external), so it is the body oracle's
output.  The staged `serialize` returns `Result`; encoding failures are out
of scope of the model. -/
def EventMessage.serialize (O : Oracle) (m : EventMessage) : Bytes :=
  versionChars m.serialization_info ++ O.body m.serialization_info.kind m.event

/-- `EventMessage::get_size` from `src/event_message/mod.rs`: the length of
the encoding taken with the size field set to zero. -/
def EventMessage.get_size (O : Oracle) (event : Event)
    (format : SerializationFormats) : Nat :=
  (EventMessage.serialize O
    { serialization_info := { kind := format, size := 0 }, event := event }).length

/-- `EventMessage::new` from `src/event_message/mod.rs`: stamp the measured
size into the version string. -/
def EventMessage.new (O : Oracle) (event : Event)
    (format : SerializationFormats) : EventMessage :=
  { serialization_info := { kind := format, size := EventMessage.get_size O event format }
    event := event }

/-- `verify_identifier_binding` from `src/event_message/mod.rs` lines
192-204.  The Basic arm checks `len == 1 && prefix == keys[0]` (the `unwrap`
is guarded by the short-circuiting length check); the SelfAddressing arm
checks the digest over the inception data; the SelfSigning arm is `todo!()`
in the source, modelled as the `none` (panic) outcome; a non-Icp event is a
`SemanticError`. -/
def verify_identifier_binding (O : Oracle) (m : EventMessage) :
    Option (Except Error Bool) :=
  match m.event.event_data with
  | .icp icp =>
    match m.event.pre with
    | .basic bp =>
      some (Except.ok
        (icp.key_config.public_keys.length == 1
          && icp.key_config.public_keys.head? == some bp))
    | .selfAddressing sap =>
      some (Except.ok
        (sap.verify_binding O
          (O.inceptionData icp sap.derivation m.serialization_info.kind)))
    | .selfSigning _ => none
  | _ => some (Except.error (Error.semanticError "Not an ICP event"))

/-- `EventSemantics for EventMessage` from `src/event_message/mod.rs` lines
133-184: Icp checks the identifier binding and applies with `last` set to the
message's own bytes; Rot and Ixn apply first, then check the prior-digest
binding against the old `last` and overwrite `last`; every other variant
(Dip, Drt) falls through to the plain event apply.  The outer `Option` is
`none` exactly when the source panics (the `todo!()` inside
`verify_identifier_binding`). -/
def EventMessage.apply_to (O : Oracle) (m : EventMessage)
    (state : IdentifierState) : Option (Except Error IdentifierState) :=
  match m.event.event_data with
  | .icp _ =>
    match verify_identifier_binding O m with
    | none => none
    | some (Except.error e) => some (Except.error e)
    | some (Except.ok b) =>
      if b then
        some (Event.apply_to O m.event
          { state with last := EventMessage.serialize O m })
      else
        some (Except.error (Error.semanticError "Invalid Identifier Prefix Binding"))
  | .rot rot =>
    some ((Event.apply_to O m.event state).bind fun next_state =>
      if rot.previous_event_hash.verify_binding O state.last then
        Except.ok { next_state with last := EventMessage.serialize O m }
      else
        Except.error (Error.semanticError "Last event does not match previous event"))
  | .ixn inter =>
    some ((Event.apply_to O m.event state).bind fun next_state =>
      if inter.previous_event_hash.verify_binding O state.last then
        Except.ok { next_state with last := EventMessage.serialize O m }
      else
        Except.error (Error.semanticError "Last event does not match previous event"))
  | _ => some (Event.apply_to O m.event state)

/-- Modelled from the spec's §4.1: the base64-url digit values
(`b64_to_num` lives in module `prefix::attached_signature`, not in the staged
sources). -/
def b64val (c : Char) : Option Nat :=
  if 'A' ≤ c ∧ c ≤ 'Z' then some (c.toNat - 65)
  else if 'a' ≤ c ∧ c ≤ 'z' then some (c.toNat - 97 + 26)
  else if '0' ≤ c ∧ c ≤ '9' then some (c.toNat - 48 + 52)
  else if c = '-' then some 62
  else if c = '_' then some 63
  else none

/-- Modelled from the spec's §4.1: a two-character base64 count. -/
def b64_to_num (c0 c1 : Char) : Option Nat := do
  pure (64 * (← b64val c0) + (← b64val c1))

/-- `sig_count` from `src/event_message/parse.rs` lines 26-41: the tag
`-A` followed by a two-character base64 count. -/
def sig_count : Bytes → Option (Nat × Bytes)
  | '-' :: 'A' :: c0 :: c1 :: rest => (b64_to_num c0 c1).map (fun n => (n, rest))
  | _ => none

/-- Take exactly `n` characters off the front of a stream. -/
def takeChars : Nat → Bytes → Option (Bytes × Bytes)
  | 0, s => some ([], s)
  | _ + 1, [] => none
  | n + 1, c :: s => (takeChars n s).map (fun p => (c :: p.1, p.2))

/-- Modelled from the spec's §4.1 prefix codec and the parser's test vectors
(module `prefix::parse` is not in the staged sources): an attached signature
is a derivation code, a base64 signing index and the fixed-width raw
signature; code `A` is Ed25519Sha512 (one index character, 86 signature
characters), code `0A` is Ed448 (two index characters, 152 signature
characters). -/
def signature (s : Bytes) : Option (AttachedSignaturePrefix × Bytes) :=
  match s with
  | 'A' :: i :: rest => do
    let idx ← b64val i
    let (sig, r) ← takeChars 86 rest
    pure ({ index := idx, signature := .ed25519Sha512 sig }, r)
  | '0' :: 'A' :: i0 :: i1 :: rest => do
    let idx ← b64_to_num i0 i1
    let (sig, r) ← takeChars 152 rest
    pure ({ index := idx, signature := .ed448 sig }, r)
  | _ => none

/-- `many0(signature)`: repeat the signature parser until it fails, with fuel
standing in for nom's well-foundedness (the parser consumes at least one
character whenever it succeeds, so `s.length` fuel never runs out first). -/
def many0_sigs : Nat → Bytes → (List AttachedSignaturePrefix × Bytes)
  | 0, s => ([], s)
  | fuel + 1, s =>
    match signature s with
    | none => ([], s)
    | some (a, rest) =>
      let (more, r) := many0_sigs fuel rest
      (a :: more, r)

/-- `signatures` from `src/event_message/parse.rs` lines 44-51: a count code,
then `many0` signatures, rejected unless the parsed tally equals the
count. -/
def signatures (s : Bytes) : Option (List AttachedSignaturePrefix × Bytes) :=
  match sig_count s with
  | none => none
  | some (count, r) =>
    let pr := many0_sigs r.length r
    if pr.1.length = count then some pr else none

/-! ## The XOR-fold commitment: order independence and the spec's procedure -/

theorem xorBytes_nil_left (b : Digest) : xorBytes [] b = [] := rfl

theorem xorBytes_nil_right (a : Digest) : xorBytes a [] = [] := by
  cases a <;> rfl

/-- Folding two digests into an accumulator byte-wise XORs position by
position, so the two orders agree. -/
theorem xorBytes_swap (a b c : Digest) :
    xorBytes (xorBytes a b) c = xorBytes (xorBytes a c) b := by
  induction a generalizing b c with
  | nil => simp [xorBytes]
  | cons x xs ih =>
    cases b with
    | nil => simp [xorBytes_nil_right, xorBytes]
    | cons y ys =>
      cases c with
      | nil => simp [xorBytes_nil_right, xorBytes]
      | cons z zs =>
        simp only [xorBytes, List.zipWith] at *
        refine congrArg₂ (· :: ·) ?_ (ih ys zs)
        rw [Nat.xor_assoc, Nat.xor_assoc, Nat.xor_comm y z]

/-- C7: for every threshold, pair of keys and hash algorithm, the XOR-fold
commitment digest is independent of the order of the two-key list. -/
theorem nxt_commitment_comm_pair (O : Oracle) (t : Nat) (k1 k2 : BasicPrefix)
    (h : SelfAddressing) :
    nxt_commitment O t [k1, k2] h = nxt_commitment O t [k2, k1] h := by
  simp only [nxt_commitment, List.foldl, SelfAddressingPrefix.new]
  exact congrArg (fun d => SelfAddressingPrefix.mk h d) (xorBytes_swap _ _ _)

/-- The commitment procedure exactly as the spec words it: start from the
hash of the lowercase-hex threshold, then for each key in order XOR in the
hash of the encoded key, byte-wise. -/
def spec_xor_fold (O : Oracle) (h : SelfAddressing) :
    Digest → List BasicPrefix → Digest
  | acc, [] => acc
  | acc, k :: ks => spec_xor_fold O h (xorBytes acc (O.hash h k.toList)) ks

/-- The spec's commitment: the folded digest tagged with the hash
algorithm. -/
def spec_commit (O : Oracle) (t : Nat) (keys : List BasicPrefix)
    (h : SelfAddressing) : SelfAddressingPrefix :=
  { derivation := h, derivative := spec_xor_fold O h (O.hash h (hexChars t)) keys }

theorem nxt_commitment_foldl_eq_spec (O : Oracle) (h : SelfAddressing)
    (keys : List BasicPrefix) (d : Digest) :
    keys.foldl
      (fun acc pk =>
        SelfAddressingPrefix.new h (xorBytes acc.derivative (O.hash h pk.toList)))
      { derivation := h, derivative := d } =
    { derivation := h, derivative := spec_xor_fold O h d keys } := by
  induction keys generalizing d with
  | nil => rfl
  | cons k ks ih =>
    simp only [List.foldl, spec_xor_fold, SelfAddressingPrefix.new]
    exact ih _

/-- The source's `nxt_commitment` computes the spec's commitment. -/
theorem nxt_commitment_eq_spec_commit (O : Oracle) (t : Nat)
    (keys : List BasicPrefix) (h : SelfAddressing) :
    nxt_commitment O t keys h = spec_commit O t keys h := by
  unfold nxt_commitment spec_commit SelfAddressing.derive
  exact nxt_commitment_foldl_eq_spec O h keys _

/-- C4: `verify_next` holds exactly when the stored next-key digest equals
the spec's commitment of the next key configuration, computed under the
stored digest's own hash algorithm. -/
theorem verify_next_iff_spec_commit (O : Oracle) (cur next : KeyConfig) :
    KeyConfig.verify_next O cur next = true ↔
      cur.threshold_key_digest =
        spec_commit O next.threshold next.public_keys
          cur.threshold_key_digest.derivation := by
  unfold KeyConfig.verify_next KeyConfig.commit
  rw [nxt_commitment_eq_spec_commit]
  exact decide_eq_true_iff

/-! ## Concrete fixtures for evaluating the embedding -/

/-- A concrete oracle for evaluating the embedding at specific inputs: the
hash of a byte list is its length, every signature verifies, the body
encoding is one character derived from the event's sequence number (so
messages with different sequence numbers have different encodings), the
inception data is empty. -/
def mockOracle : Oracle where
  hash := fun _ s => [s.length % 256]
  sigVerify := fun _ _ _ => Except.ok true
  body := fun _ e => [Char.ofNat (48 + e.sn % 10)]
  inceptionData := fun _ _ _ => []

/-- A sample key configuration with a single key. -/
def sampleKeyConfig : KeyConfig :=
  { threshold := 1
    public_keys := ["Dk0"]
    threshold_key_digest := { derivation := .blake3_256, derivative := [7] } }

/-- A sample inception payload over `sampleKeyConfig`. -/
def sampleIcp : InceptionEvent :=
  { key_config := sampleKeyConfig
    witness_config := { tally := 0, initial_witnesses := [] }
    inception_configuration := [] }

/-- A sample inception event with a Basic identifier bound to its one key. -/
def sampleEvent : Event :=
  { pre := .basic "Dk0", sn := 0, event_data := .icp sampleIcp }

/-- A sample attached signature at index zero. -/
def sampleSig : AttachedSignaturePrefix :=
  { index := 0, signature := .ed25519Sha512 [] }

/-! ## Version-string size field (C8) -/

theorem hexPad6_zero_length : (hexPad6 0).length = 6 := rfl

/-- With fuel at least the value, the fueled digit list has no more digits
than the exponent bounding the value. -/
theorem hexDigitsAux_length_le (fuel : Nat) :
    ∀ n k : Nat, n < 16 ^ k → n ≤ fuel → (hexDigitsAux fuel n).length ≤ k := by
  induction fuel with
  | zero =>
    intro n k _ _
    simp [hexDigitsAux]
  | succ f ih =>
    intro n k hn hf
    cases n with
    | zero => simp [hexDigitsAux]
    | succ m =>
      have hk : k ≠ 0 := by
        intro h0
        subst h0
        simp at hn
      obtain ⟨k2, rfl⟩ := Nat.exists_eq_succ_of_ne_zero hk
      simp only [hexDigitsAux, List.length_cons]
      have hdiv : (m + 1) / 16 < 16 ^ k2 := by
        apply Nat.div_lt_of_lt_mul
        calc m + 1 < 16 ^ (k2 + 1) := hn
          _ = 16 * 16 ^ k2 := by ring
      have hfl : (m + 1) / 16 ≤ f := by
        have := Nat.div_lt_self (Nat.succ_pos m) (by norm_num : 1 < 16)
        omega
      have := ih ((m + 1) / 16) k2 hdiv hfl
      omega

/-- Below `16^6` the size field is exactly six characters wide, whatever the
value. -/
theorem hexPad6_length_of_lt (n : Nat) (h : n < 16 ^ 6) :
    (hexPad6 n).length = 6 := by
  unfold hexPad6
  have hd : (hexDigitsAux n n).length ≤ 6 :=
    hexDigitsAux_length_le n n 6 h (Nat.le_refl n)
  simp only [List.length_append, List.length_replicate, List.length_map,
    List.length_reverse]
  omega

theorem toChars_length (format : SerializationFormats) :
    format.toChars.length = 4 := by
  cases format <;> rfl

/-- The length of an encoded message: eleven fixed version-string characters,
the size field, the body. -/
theorem serialize_length (O : Oracle) (m : EventMessage) :
    (EventMessage.serialize O m).length =
      11 + (hexPad6 m.serialization_info.size).length
        + (O.body m.serialization_info.kind m.event).length := by
  unfold EventMessage.serialize versionChars
  simp only [List.length_append, List.length_cons, List.length_nil,
    toChars_length]
  have h6 : ("KERI10".toList).length = 6 := rfl
  omega

/-- C8: the size stamped by `EventMessage::new` equals the byte length of the
message's own serialization, and the first pass (size field zero) measures
the same length as the final encoding, whenever the measured size fits the
six-digit field. -/
theorem new_size_eq_serialized_length (O : Oracle) (event : Event)
    (format : SerializationFormats)
    (hfit : EventMessage.get_size O event format < 16 ^ 6) :
    (EventMessage.serialize O (EventMessage.new O event format)).length
        = (EventMessage.new O event format).serialization_info.size
      ∧ (EventMessage.serialize O
          { serialization_info := { kind := format, size := 0 }, event := event }).length
        = (EventMessage.serialize O (EventMessage.new O event format)).length := by
  have hzero :
      (EventMessage.serialize O
        { serialization_info := { kind := format, size := 0 }, event := event }).length
        = 17 + (O.body format event).length := by
    rw [serialize_length]
    simp [hexPad6_zero_length]
  have hsize : EventMessage.get_size O event format = 17 + (O.body format event).length := by
    unfold EventMessage.get_size
    exact hzero
  have hfinal :
      (EventMessage.serialize O (EventMessage.new O event format)).length
        = 17 + (O.body format event).length := by
    rw [serialize_length]
    unfold EventMessage.new
    simp only
    rw [hexPad6_length_of_lt _ hfit]
  constructor
  · rw [hfinal]
    unfold EventMessage.new
    simp only
    omega
  · rw [hzero, hfinal]

/-- Witness for C8 at a concrete event: the stamped size is the encoded
length. -/
theorem new_size_eq_serialized_length_witness :
    (EventMessage.serialize mockOracle
        (EventMessage.new mockOracle sampleEvent .json)).length
      = (EventMessage.new mockOracle sampleEvent .json).serialization_info.size :=
  (new_size_eq_serialized_length mockOracle sampleEvent .json (by decide)).1

/-! ## The attached-signature block parser (C9) -/

/-- C9: the signature-block parser succeeds only when the `-A<NN>` count
equals the number of signatures `many0` parsed before the trailing data, and
whenever the tally differs from the count it returns an error. -/
theorem signatures_count_exact (s : Bytes) :
    (∀ sigs rest, signatures s = some (sigs, rest) →
      ∃ n r, sig_count s = some (n, r) ∧ sigs.length = n
        ∧ many0_sigs r.length r = (sigs, rest))
    ∧ (∀ n r, sig_count s = some (n, r) →
        (many0_sigs r.length r).1.length ≠ n → signatures s = none) := by
  constructor
  · intro sigs rest hs
    unfold signatures at hs
    cases hc : sig_count s with
    | none => rw [hc] at hs; exact absurd hs (by simp)
    | some p =>
      obtain ⟨n, r⟩ := p
      rw [hc] at hs
      simp only at hs
      by_cases hlen : (many0_sigs r.length r).1.length = n
      · rw [if_pos hlen] at hs
        refine ⟨n, r, rfl, ?_, ?_⟩
        · rw [← hlen]
          exact (congrArg (fun q => q.1.length) (Option.some.inj hs)).symm
        · exact Option.some.inj hs
      · rw [if_neg hlen] at hs
        exact absurd hs (by simp)
  · intro n r hc hne
    unfold signatures
    rw [hc]
    simp only
    rw [if_neg hne]

/-- A well-formed Ed25519 attached-signature text: code `A`, index `A`,
86 signature characters. -/
def sigText : Bytes := 'A' :: 'A' :: List.replicate 86 'A'

/-- A block whose count code says two signatures but which carries one. -/
def sBadCount : Bytes := '-' :: 'A' :: 'A' :: 'C' :: sigText

/-- Witness for C9: the mismatched count block is rejected. -/
theorem signatures_count_exact_witness : signatures sBadCount = none :=
  (signatures_count_exact sBadCount).2 2 sigText (by decide) (by decide)

/-! ## KeyConfig.verify: the duplicate-index accumulation and the
signature fold (C3, C10) -/

theorem getD_set_self (l : List Nat) (i v : Nat) (h : i < l.length) :
    (l.set i v).getD i 0 = v := by
  induction l generalizing i with
  | nil => exact absurd h (by simp)
  | cons x xs ih =>
    cases i with
    | zero => rfl
    | succ j => exact ih j (by simpa using h)

theorem getD_set_ne (l : List Nat) (i j v : Nat) (hne : i ≠ j) :
    (l.set i v).getD j 0 = l.getD j 0 := by
  induction l generalizing i j with
  | nil => cases i <;> rfl
  | cons x xs ih =>
    cases i with
    | zero =>
      cases j with
      | zero => exact absurd rfl hne
      | succ k => rfl
    | succ i2 =>
      cases j with
      | zero => rfl
      | succ k => exact ih i2 k (fun he => hne (by rw [he]))

theorem getD_replicate_zero (n i : Nat) : (List.replicate n 0).getD i 0 = 0 := by
  induction n generalizing i with
  | zero => cases i <;> rfl
  | succ m ih =>
    cases i with
    | zero => rfl
    | succ j => exact ih j

/-- `bumpAt` succeeds exactly on an in-range index, producing the
incremented entry. -/
theorem bumpAt_eq_some (acc : List Nat) (i : Nat) (h : i < acc.length) :
    bumpAt acc i = some (acc.set i (acc.getD i 0 + 1)) := by
  induction acc generalizing i with
  | nil => exact absurd h (by simp)
  | cons x xs ih =>
    cases i with
    | zero => rfl
    | succ j =>
      simp only [bumpAt, List.set, List.getD_cons_succ]
      rw [ih j (by simpa using h)]
      rfl

/-- The duplicate-index fold, from any accumulator: it succeeds when every
index is in range, keeps the length, and adds to each slot the number of
signatures declaring that index. -/
theorem dupFold_go (sigs : List AttachedSignaturePrefix) :
    ∀ acc : List Nat, (∀ s ∈ sigs, s.index < acc.length) →
      ∃ res, sigs.foldlM (fun a s => bumpAt a s.index) acc = some res
        ∧ res.length = acc.length
        ∧ ∀ i, res.getD i 0
            = acc.getD i 0 + (sigs.map (fun s => s.index)).count i := by
  induction sigs with
  | nil =>
    intro acc _
    exact ⟨acc, rfl, rfl, fun i => by simp⟩
  | cons s ss ih =>
    intro acc hidx
    have hs : s.index < acc.length := hidx s (by simp)
    have hstep := bumpAt_eq_some acc s.index hs
    have hlen2 : (acc.set s.index (acc.getD s.index 0 + 1)).length = acc.length := by
      simp
    obtain ⟨res, hfold, hlen, hcount⟩ :=
      ih (acc.set s.index (acc.getD s.index 0 + 1))
        (fun x hx => by rw [hlen2]; exact hidx x (List.mem_cons_of_mem s hx))
    refine ⟨res, ?_, by rw [hlen, hlen2], ?_⟩
    · rw [List.foldlM_cons, hstep]
      exact hfold
    · intro i
      rw [hcount i]
      by_cases hi : s.index = i
      · subst hi
        rw [getD_set_self acc s.index _ hs]
        simp [List.count_cons]
        omega
      · rw [getD_set_ne acc s.index i _ hi]
        simp [List.count_cons, hi]

theorem all_le_one_iff_getD (res : List Nat) :
    (res.all (fun n => n ≤ 1) = true) ↔ ∀ i, res.getD i 0 ≤ 1 := by
  induction res with
  | nil =>
    simp only [List.all_nil, true_iff]
    intro i
    cases i <;> simp [List.getD]
  | cons x xs ih =>
    simp only [List.all_cons, Bool.and_eq_true, decide_eq_true_iff, ih]
    constructor
    · rintro ⟨hx, hxs⟩ i
      cases i with
      | zero => simpa using hx
      | succ j => simpa using hxs j
    · intro h
      exact ⟨by simpa using h 0, fun j => by simpa using h (j + 1)⟩

/-- A signature acceptable to the verification fold: its declared index names
a key and the oracle verifies it. -/
def sigOk (O : Oracle) (kc : KeyConfig) (msg : Bytes)
    (s : AttachedSignaturePrefix) : Prop :=
  ∃ k, kc.public_keys.get? s.index = some k
    ∧ O.sigVerify k msg s.signature = Except.ok true

/-- The signature fold yields `Ok(true)` from a starting accumulator exactly
when the accumulator is `Ok(true)` and every signature is acceptable. -/
theorem verify_foldl_ok_true (O : Oracle) (kc : KeyConfig) (msg : Bytes)
    (sigs : List AttachedSignaturePrefix) (acc : Except Error Bool) :
    (sigs.foldl
      (fun acc s =>
        acc.bind fun a =>
          if a then
            match kc.public_keys.get? s.index with
            | none => Except.error (Error.semanticError "Key index not present in set")
            | some key => O.sigVerify key msg s.signature
          else Except.ok false) acc = Except.ok true)
    ↔ acc = Except.ok true ∧ ∀ s ∈ sigs, sigOk O kc msg s := by
  induction sigs generalizing acc with
  | nil => simp
  | cons s ss ih =>
    rw [List.foldl_cons, ih]
    constructor
    · rintro ⟨hstep, hss⟩
      cases acc with
      | error e => exact absurd hstep (by simp [Except.bind])
      | ok a =>
        cases a with
        | false => exact absurd hstep (by simp [Except.bind])
        | true =>
          refine ⟨rfl, ?_⟩
          intro x hx
          rcases List.mem_cons.mp hx with hx | hx
          · subst hx
            simp only [Except.bind] at hstep
            cases hget : kc.public_keys.get? x.index with
            | none => rw [hget] at hstep; exact absurd hstep (by simp)
            | some k =>
              rw [hget] at hstep
              exact ⟨k, hget, hstep⟩
          · exact hss x hx
    · rintro ⟨hacc, hall⟩
      subst hacc
      obtain ⟨k, hget, hver⟩ := hall s (by simp)
      refine ⟨?_, fun x hx => hall x (List.mem_cons_of_mem s hx)⟩
      simp only [Except.bind, if_pos]
      rw [hget]
      exact hver

/-- C3 (amended): with every declared index in range, `KeyConfig::verify`
rejects a short signature list with `NotEnoughSigsError`, rejects an
oversized list or a repeated index with a `SemanticError`, and otherwise
returns `Ok(true)` exactly when every signature verifies under the key at
its declared index. -/
theorem verify_characterization (O : Oracle) (kc : KeyConfig) (msg : Bytes)
    (sigs : List AttachedSignaturePrefix)
    (hidx : ∀ s ∈ sigs, s.index < kc.public_keys.length) :
    (sigs.length < kc.threshold →
      KeyConfig.verify O kc msg sigs = some (Except.error Error.notEnoughSigsError))
    ∧ (kc.threshold ≤ sigs.length → kc.public_keys.length < sigs.length →
      KeyConfig.verify O kc msg sigs
        = some (Except.error (Error.semanticError "Invalid signatures set")))
    ∧ (kc.threshold ≤ sigs.length → sigs.length ≤ kc.public_keys.length →
      ¬ (sigs.map (fun s => s.index)).Nodup →
      KeyConfig.verify O kc msg sigs
        = some (Except.error (Error.semanticError "Invalid signatures set")))
    ∧ (kc.threshold ≤ sigs.length → sigs.length ≤ kc.public_keys.length →
      (sigs.map (fun s => s.index)).Nodup →
      (KeyConfig.verify O kc msg sigs = some (Except.ok true) ↔
        ∀ s ∈ sigs, sigOk O kc msg s)) := by
  obtain ⟨res, hfold, hlen, hcount⟩ :=
    dupFold_go sigs (List.replicate kc.public_keys.length 0)
      (fun s hs => by simpa using hidx s hs)
  have hres : dupFold kc.public_keys.length sigs = some res := hfold
  have hcnt : ∀ i, res.getD i 0 = (sigs.map (fun s => s.index)).count i := by
    intro i
    rw [hcount i, getD_replicate_zero]
    omega
  have hnodup : (sigs.map (fun s => s.index)).Nodup ↔
      (res.all (fun n => n ≤ 1) = true) := by
    rw [all_le_one_iff_getD, List.nodup_iff_count_le_one]
    constructor
    · intro h i
      rw [hcnt i]
      exact h i
    · intro h i
      rw [← hcnt i]
      exact h i
  refine ⟨?_, ?_, ?_, ?_⟩
  · intro hshort
    unfold KeyConfig.verify
    rw [if_pos hshort]
  · intro hth hover
    unfold KeyConfig.verify
    rw [if_neg (by omega), if_neg (by omega)]
  · intro hth hle hdup
    unfold KeyConfig.verify
    rw [if_neg (by omega), if_pos hle, hres]
    simp only
    rw [if_neg (fun hall => hdup (hnodup.mpr hall))]
  · intro hth hle hdup
    unfold KeyConfig.verify
    rw [if_neg (by omega), if_pos hle, hres]
    simp only
    rw [if_pos (hnodup.mp hdup)]
    unfold verifyFold
    rw [Option.some.injEq, verify_foldl_ok_true]
    simp

/-- Witness for C3 at a concrete input: one valid signature at index zero is
accepted. -/
theorem verify_characterization_witness :
    KeyConfig.verify mockOracle sampleKeyConfig "m".toList [sampleSig]
      = some (Except.ok true) := by
  refine ((verify_characterization mockOracle sampleKeyConfig "m".toList [sampleSig]
    (by decide)).2.2.2 (by decide) (by decide) (by decide)).mpr ?_
  intro s hs
  rw [List.mem_singleton.mp hs]
  exact ⟨"Dk0", rfl, rfl⟩

/-- A key configuration with three keys, for the repeated out-of-range
counterexample. -/
def kcThree : KeyConfig :=
  { threshold := 1
    public_keys := ["Dk0", "Dk1", "Dk2"]
    threshold_key_digest := { derivation := .blake3_256, derivative := [7] } }

/-- Counterexample to C3 as stated: two signatures repeating the out-of-range
index five, with the list length between threshold and key count, make
`verify` return no value at all (the Rust duplicate accumulation indexes out
of bounds and panics) instead of an error. -/
theorem verify_repeated_index_no_error :
    KeyConfig.verify mockOracle kcThree "m".toList
      [{ index := 5, signature := .ed25519Sha512 [] },
       { index := 5, signature := .ed25519Sha512 [] }] = none := by
  decide

/-- C10: a single signature whose index equals the key-list length, with the
count within threshold and key-count bounds, makes `verify` panic (modelled
`none`) in the duplicate-index accumulation rather than return a value. -/
theorem verify_out_of_bounds_index_panics :
    KeyConfig.verify mockOracle sampleKeyConfig "m".toList
      [{ index := 1, signature := .ed25519Sha512 [] }] = none := by
  decide

/-! ## Event pre-checks and the error taxonomy (C1, C6) -/

/-- A rotation payload over the sample key configuration. -/
def sampleRot : RotationEvent :=
  { previous_event_hash := { derivation := .blake3_256, derivative := [0] }
    key_config := sampleKeyConfig
    witness_config := { tally := 0, prune := [], graft := [] }
    data := [] }

/-- A state at sequence number zero under the Basic sample identifier. -/
def stateAtZero : IdentifierState :=
  { pre := .basic "Dk0", sn := 0, last := ['0'], current := sampleKeyConfig
    witnesses := [], tally := 0, delegated_keys := [], delegator := none }

/-- A state at sequence number one under the Basic sample identifier. -/
def stateAtOne : IdentifierState :=
  { pre := .basic "Dk0", sn := 1, last := ['1'], current := sampleKeyConfig
    witnesses := [], tally := 0, delegated_keys := [], delegator := none }

/-- C1, evaluated at the failing inputs: a rotation five ahead of the state
(out of order) and a rotation at the state's own sequence number (duplicate)
are both answered by `Event::apply_to` with
`SemanticError("SN is not correct")`, not with `EventOutOfOrderError` or
`EventDuplicateError`. -/
theorem rot_sn_violations_semantic_error :
    Event.apply_to mockOracle
        { pre := .basic "Dk0", sn := 5, event_data := .rot sampleRot } stateAtZero
      = Except.error (Error.semanticError "SN is not correct")
    ∧ Event.apply_to mockOracle
        { pre := .basic "Dk0", sn := 5, event_data := .rot sampleRot } stateAtZero
      ≠ Except.error Error.eventOutOfOrderError
    ∧ Event.apply_to mockOracle
        { pre := .basic "Dk0", sn := 1, event_data := .rot sampleRot } stateAtOne
      = Except.error (Error.semanticError "SN is not correct")
    ∧ Event.apply_to mockOracle
        { pre := .basic "Dk0", sn := 1, event_data := .rot sampleRot } stateAtOne
      ≠ Except.error Error.eventDuplicateError := by
  refine ⟨by decide, by decide, by decide, by decide⟩

/-- A state with the default identifier but sequence number one: its prefix
is untouched, so the inception pre-check's prefix test passes although the
state is not empty. -/
def stateDefaultSnOne : IdentifierState :=
  { pre := IdentifierPrefix.default, sn := 1, last := ['x']
    current := sampleKeyConfig, witnesses := [], tally := 0
    delegated_keys := [], delegator := none }

/-- Counterexample to C6 as stated: applying the sample inception (event
sequence number zero) to a state whose sequence number is one — a non-empty
prior state — succeeds, because the staged check reads the event's sequence
number, never the state's. -/
theorem icp_on_nonzero_sn_state_succeeds :
    stateDefaultSnOne.sn = 1
    ∧ Event.apply_to mockOracle sampleEvent stateDefaultSnOne
        = Except.ok
          { pre := .basic "Dk0", sn := 0, last := ['x']
            current := sampleKeyConfig, witnesses := [], tally := 0
            delegated_keys := [], delegator := none } := by
  refine ⟨rfl, by decide⟩

/-- C6 (amended): an inception applies successfully only when the state's
identifier is the default prefix and the event's sequence number is zero; in
every other case `Event::apply_to` returns
`SemanticError("SN is not correct")`. -/
theorem icp_requires_default_state_and_sn_zero (O : Oracle) (e : Event)
    (state : IdentifierState) (icp : InceptionEvent)
    (hdata : e.event_data = EventData.icp icp) :
    (∀ st2, Event.apply_to O e state = Except.ok st2 →
      state.pre = IdentifierPrefix.default ∧ e.sn = 0)
    ∧ (state.pre ≠ IdentifierPrefix.default ∨ e.sn ≠ 0 →
      Event.apply_to O e state
        = Except.error (Error.semanticError "SN is not correct")) := by
  unfold Event.apply_to
  rw [hdata]
  constructor
  · intro st2 happly
    by_cases hcond : state.pre ≠ IdentifierPrefix.default ∨ e.sn ≠ 0
    · rw [if_pos hcond] at happly
      exact absurd happly (by simp [Except.bind])
    · push_neg at hcond
      exact hcond
  · intro hcond
    rw [if_pos hcond]
    rfl

/-- Witness for C6's amended claim: the inception against the post-inception
state (a non-default identifier) is a `SemanticError`. -/
theorem icp_requires_default_witness :
    Event.apply_to mockOracle sampleEvent stateAtOne
      = Except.error (Error.semanticError "SN is not correct") :=
  (icp_requires_default_state_and_sn_zero mockOracle sampleEvent stateAtOne
    sampleIcp rfl).2 (Or.inl (by decide))

/-! ## The post-apply `last`/`sn` invariant (C2) -/

/-- The sample inception message, sized by `EventMessage::new`. -/
def icpMsg : EventMessage := EventMessage.new mockOracle sampleEvent .json

/-- A delegated-inception payload reusing the sample inception. -/
def sampleDip : DelegatedInceptionEvent :=
  { inception := sampleIcp, delegator := .basic "Dd0" }

/-- The delegated-inception message at sequence number one under the sample
identifier. -/
def dipMsg : EventMessage :=
  EventMessage.new mockOracle
    { pre := .basic "Dk0", sn := 1, event_data := .dip sampleDip } .json

/-- The state after the sample inception: sequence number zero, `last`
holding the inception message's bytes. -/
def stateAfterIcp : IdentifierState :=
  { pre := .basic "Dk0", sn := 0
    last := EventMessage.serialize mockOracle icpMsg
    current := sampleKeyConfig, witnesses := [], tally := 0
    delegated_keys := [], delegator := none }

/-- The state the embedding computes for the Dip applied to
`stateAfterIcp`: `sn` advanced, `last` unchanged. -/
def stateAfterDip : IdentifierState :=
  { pre := .basic "Dk0", sn := 1
    last := EventMessage.serialize mockOracle icpMsg
    current := sampleKeyConfig, witnesses := [], tally := 0
    delegated_keys := [], delegator := some (.basic "Dd0") }

/-- C2, evaluated at the failing input: applying the Dip message succeeds and
advances `sn` to one, yet `last` still holds the bytes of the
sequence-number-zero inception message, not the Dip's own serialization —
the `last`/`sn` invariant fails for the Dip variant (the catch-all arm of
`EventMessage::apply_to` never updates `last`). -/
theorem dip_apply_leaves_stale_last :
    EventMessage.apply_to mockOracle dipMsg stateAfterIcp
        = some (Except.ok stateAfterDip)
    ∧ stateAfterDip.sn = 1
    ∧ stateAfterDip.last = EventMessage.serialize mockOracle icpMsg
    ∧ icpMsg.event.sn = 0
    ∧ stateAfterDip.last ≠ EventMessage.serialize mockOracle dipMsg := by
  refine ⟨by decide, rfl, rfl, rfl, by decide⟩

/-! ## Basic identifier binding at inception (C5) -/

/-- C5: for an inception message with a Basic identifier, a successful apply
forces the key configuration to hold exactly the one key equal to the
identifier, and any other key configuration fails with a `SemanticError`. -/
theorem basic_icp_binding (O : Oracle) (m : EventMessage)
    (state : IdentifierState) (icp : InceptionEvent) (bp : BasicPrefix)
    (hdata : m.event.event_data = EventData.icp icp)
    (hpre : m.event.pre = IdentifierPrefix.basic bp) :
    (∀ st2, EventMessage.apply_to O m state = some (Except.ok st2) →
      icp.key_config.public_keys = [bp])
    ∧ (icp.key_config.public_keys ≠ [bp] →
      EventMessage.apply_to O m state
        = some (Except.error
            (Error.semanticError "Invalid Identifier Prefix Binding"))) := by
  have hbind : verify_identifier_binding O m
      = some (Except.ok
          (icp.key_config.public_keys.length == 1
            && icp.key_config.public_keys.head? == some bp)) := by
    unfold verify_identifier_binding
    rw [hdata, hpre]
  have hkeys : ((icp.key_config.public_keys.length == 1
      && icp.key_config.public_keys.head? == some bp) = true)
      ↔ icp.key_config.public_keys = [bp] := by
    cases hpk : icp.key_config.public_keys with
    | nil => simp
    | cons a l =>
      cases l with
      | nil => simp [List.head?]
      | cons b l2 => simp
  constructor
  · intro st2 happly
    unfold EventMessage.apply_to at happly
    rw [hdata, hbind] at happly
    dsimp only at happly
    by_cases hb : (icp.key_config.public_keys.length == 1
        && icp.key_config.public_keys.head? == some bp) = true
    · exact hkeys.mp hb
    · rw [if_neg hb] at happly
      exact absurd happly (by simp)
  · intro hne
    have hb : (icp.key_config.public_keys.length == 1
        && icp.key_config.public_keys.head? == some bp) = false := by
      rw [← Bool.not_eq_true]
      exact fun hb => hne (hkeys.mp hb)
    unfold EventMessage.apply_to
    rw [hdata, hbind, hb]
    dsimp only
    rfl

/-- An inception payload with two keys, violating Basic identifier
binding. -/
def doubleIcp : InceptionEvent :=
  { key_config :=
      { threshold := 1
        public_keys := ["Dk0", "Dk1"]
        threshold_key_digest := { derivation := .blake3_256, derivative := [7] } }
    witness_config := { tally := 0, initial_witnesses := [] }
    inception_configuration := [] }

/-- The two-key inception message under a Basic identifier. -/
def doubleIcpMsg : EventMessage :=
  EventMessage.new mockOracle
    { pre := .basic "Dk0", sn := 0, event_data := .icp doubleIcp } .json

/-- Witness for C5: the two-key Basic inception is rejected with the binding
`SemanticError`. -/
theorem basic_icp_binding_witness :
    EventMessage.apply_to mockOracle doubleIcpMsg IdentifierState.default
      = some (Except.error
          (Error.semanticError "Invalid Identifier Prefix Binding")) :=
  (basic_icp_binding mockOracle doubleIcpMsg IdentifierState.default doubleIcp
    "Dk0" rfl rfl).2 (by decide)

end Keriox
